import Mathlib

/-!
Verification of the MCDM dashboard decision engine (`app.py`).

The development shallowly embeds the two core functions of the repository:

* `read_mcdm_template` — the aggregation stage: pooled pairwise
  correlations (`matrix.corr().abs()` pooled by `np.median`), the Monte
  Carlo sensitivity-elasticity estimation, and the representativeness
  band derivation (`L`, `U`, `D`).
* `build_mcdm_model` — the Pyomo MILP construction: its constraint system
  is embedded as a feasibility predicate `Feasible` over explicit
  variable assignments, and its build-time failure behaviour (KeyError /
  ZeroDivisionError) as an `Except`-valued builder over raw dictionary
  data.

Machine floats are modelled by `ℚ`; the float value NaN (which `ℚ` cannot
represent) is modelled by `Option.none` where the source can produce it.
-/

namespace MCDM

/-! ## List helpers (numpy / pandas primitives) -/

/-- Sum of pairwise products, `np.dot` on equal-length vectors. -/
def dotQ (xs ys : List ℚ) : ℚ := (List.zipWith (· * ·) xs ys).sum

/-- Minimum of a list, matching `pandas.Series.min` on the
nonempty columns the source reads (`0` only for the unused empty case). -/
def minD : List ℚ → ℚ
  | [] => 0
  | x :: xs => xs.foldl min x

/-- Maximum of a list, matching `pandas.Series.max`. -/
def maxD : List ℚ → ℚ
  | [] => 0
  | x :: xs => xs.foldl max x

/-- Column `j` of a row-major matrix, as `df.iloc[:, j]`. -/
def column (m : List (List ℚ)) (j : ℕ) : List ℚ :=
  m.map (fun row => row.getD j 0)

/-- Median as computed by `np.median`: sort ascending, take the middle
element for odd length and the mean of the two middle elements for even
length. -/
def medianQ (xs : List ℚ) : ℚ :=
  let sorted := List.insertionSort (· ≤ ·) xs
  let len := xs.length
  if len % 2 = 1 then sorted.getD (len / 2) 0
  else (sorted.getD (len / 2 - 1) 0 + sorted.getD (len / 2) 0) / 2

/-! ## Pooled pairwise correlation (`read_mcdm_template`, distinctiveness)

The source computes, per expert, `matrix.corr().abs()` and pools the
per-expert matrices with `np.median(stacked, axis=2)`.  Pandas' Pearson
correlation of two columns is `cov / (sx * sy)`; it is the float NaN
exactly when one of the columns has zero variance, and `np.median`
propagates NaN.  Because `|r| = sqrt(cov^2 / (varx * vary))` and squaring
is monotone on `[0, 1]`, we track the square `cov^2 / (varx * vary)` of
the absolute correlation so as to stay inside `ℚ`; NaN is modelled as
`none`, and `none` is produced in exactly the situations where pandas
produces NaN. -/

/-- Mean of a column (`Series.mean`). -/
def meanQ (xs : List ℚ) : ℚ := xs.sum / xs.length

/-- Centered sum of products `Σ (xᵢ - x̄)(yᵢ - ȳ)`, the unnormalized
covariance used by Pearson correlation. -/
def covS (xs ys : List ℚ) : ℚ :=
  dotQ (xs.map (fun v => v - meanQ xs)) (ys.map (fun v => v - meanQ ys))

/-- Squared absolute Pearson correlation of two columns, `none` (NaN)
when either column has zero variance — exactly when `matrix.corr()` is
NaN at that entry. -/
def pearsonAbsSq (xs ys : List ℚ) : Option ℚ :=
  if covS xs xs = 0 ∨ covS ys ys = 0 then none
  else some ((covS xs ys) ^ 2 / (covS xs xs * covS ys ys))

/-- Per-expert absolute correlation (squared) between criteria columns
`j` and `k`: one entry per expert decision matrix. -/
def perExpertCorr (ms : List (List (List ℚ))) (j k : ℕ) : List (Option ℚ) :=
  ms.map (fun m => pearsonAbsSq (column m j) (column m k))

/-- The pooled correlation the code computes: `np.median` across experts,
which propagates NaN — the pooled value is defined only when every
expert's correlation is defined. -/
def pooledCorrCode (ms : List (List (List ℚ))) (j k : ℕ) : Option ℚ :=
  let vals := perExpertCorr ms j k
  if vals.all Option.isSome then some (medianQ vals.reduceOption) else none

/-- The pooled correlation the specification prescribes: an undefined
per-expert correlation is mapped to the sentinel `0` before pooling, so
the result is always a number. -/
def pooledCorrSpec (ms : List (List (List ℚ))) (j k : ℕ) : Option ℚ :=
  let vals := perExpertCorr ms j k
  some (medianQ (vals.map (fun v => v.getD 0)))

/-! ## Sensitivity elasticity (`read_mcdm_template`, Monte Carlo)

The Dirichlet draws produced by `np.random.dirichlet` after
`np.random.seed(42)` form a fixed sequence determined by the seed and the
shape; they enter the embedding as an explicit `draws` parameter
(`num_simulations = 1000` rows, each a nonnegative weight vector).  With
the draws fixed, the whole computation is a pure function of its inputs,
which is the code's reproducibility property. -/

/-- Direction-aware min-max normalization of a single entry `v` of a
column with values `colVals` (`normalize_matrix` in the source): a
degenerate column (equal min and max) is fixed at `1.0`; a `Benefit`
column maps `v` to `(v - min) / (max - min)`; any other type is treated
as cost and maps `v` to `(max - v) / (max - min)`. -/
def normEntry (colVals : List ℚ) (isBenefit : Bool) (v : ℚ) : ℚ :=
  if maxD colVals = minD colVals then 1
  else if isBenefit then (v - minD colVals) / (maxD colVals - minD colVals)
  else (maxD colVals - v) / (maxD colVals - minD colVals)

/-- Column-wise normalization of an expert decision matrix with `nc`
criteria columns, given the criteria type strings. -/
def normalizeMatrix (nc : ℕ) (m : List (List ℚ)) (types : List String) :
    List (List ℚ) :=
  m.map (fun row =>
    (List.range nc).map (fun j =>
      normEntry (column m j) (types.getD j "" == "Benefit") (row.getD j 0)))

/-- Per-draw elasticity vector as the code computes it: alternative
scores are `norm_mat.values @ weights`, the total is their sum, and for
`total > 0` criterion `j` contributes
`(norm_mat.iloc[:, j] * weights[j]).sum() / total`; otherwise the vector
is all zeros. -/
def elasticityDraw (nc : ℕ) (nm : List (List ℚ)) (w : List ℚ) : List ℚ :=
  if (nm.map (fun row => dotQ row w)).sum > 0 then
    (List.range nc).map (fun j =>
      ((column nm j).map (· * w.getD j 0)).sum / (nm.map (fun row => dotQ row w)).sum)
  else
    List.replicate nc 0

/-- Per-draw elasticity vector as the claim words it: criterion `j`'s
elasticity is its weighted contribution divided by the total weighted
score, and `0` when the total is `0`. -/
def elasticityDrawSpec (nc : ℕ) (nm : List (List ℚ)) (w : List ℚ) : List ℚ :=
  if (nm.map (fun row => dotQ row w)).sum = 0 then List.replicate nc 0
  else
    (List.range nc).map (fun j =>
      w.getD j 0 * (column nm j).sum / (nm.map (fun row => dotQ row w)).sum)

/-- Component-wise mean of a list of vectors (`np.mean(·, axis=0)`). -/
def meanVec (nc : ℕ) (vs : List (List ℚ)) : List ℚ :=
  (List.range nc).map (fun j => (vs.map (fun v => v.getD j 0)).sum / vs.length)

/-- Sensitivity estimate for one expert: mean over the draws of the
per-draw elasticity vectors, computed on the normalized matrix. -/
def sensitivityExpert (nc : ℕ) (nm : List (List ℚ)) (draws : List (List ℚ)) :
    List ℚ :=
  meanVec nc (draws.map (elasticityDraw nc nm))

/-- The code's sensitivity pipeline: normalize each expert matrix, run
every draw, average over draws per expert, then average over experts. -/
def sensitivityCode (nc : ℕ) (ms : List (List (List ℚ))) (types : List String)
    (draws : List (List ℚ)) : List ℚ :=
  meanVec nc (ms.map (fun m => sensitivityExpert nc (normalizeMatrix nc m types) draws))

/-- The claim's formulation of the same pipeline, differing only in the
per-draw branch (`total = 0` yields zeros, any other total divides). -/
def sensitivitySpec (nc : ℕ) (ms : List (List (List ℚ))) (types : List String)
    (draws : List (List ℚ)) : List ℚ :=
  meanVec nc (ms.map (fun m =>
    meanVec nc (draws.map (elasticityDrawSpec nc (normalizeMatrix nc m types)))))

/-! ## Representativeness bands (`read_mcdm_template`, lines 1141–1192) -/

/-- Per-objective target coverage `Io`: column sums of the consolidated
criterion×objective assignment matrix (`g_matrix.sum(axis=0)`), with the
source's 1-based objective indexing. -/
def templateIo (gm : List (List ℤ)) (o : ℕ) : ℤ :=
  (gm.map (fun row => row.getD (o - 1) 0)).sum

/-- Lower band bound produced by the reader: `L = {o: 1 for o in O}`. -/
def templateL (_o : ℕ) : ℤ := 1

/-- Upper band bound produced by the reader: `U = {o: 2 for o in O}`. -/
def templateU (_o : ℕ) : ℤ := 2

/-- Deficit bound produced by the reader:
`D = {o: max(1, Io_dict[o] - U[o]) for o in O}`. -/
def templateD (gm : List (List ℤ)) (o : ℕ) : ℤ :=
  max 1 (templateIo gm o - templateU o)

/-! ## The decision model (`build_mcdm_model`)

`MCDMData` is the `data` dictionary handed to `build_mcdm_model` after a
successful read: index sets, per-criterion aggregated metrics, the
pooled correlation and coverage maps, thresholds and constants.  Per the
reader's construction the metric dictionaries have exactly the keys of
`I`, so they appear here as total functions; `sum(u.values())` from the
source is therefore `sumU` below. -/

structure MCDMData where
  I : List ℕ
  O : List ℕ
  pairs : List (ℕ × ℕ)
  c : ℕ → ℚ
  u : ℕ → ℚ
  m : ℕ → ℚ
  s : ℕ → ℚ
  ce : ℕ → ℚ
  a : ℕ → ℚ
  cc : ℕ → ℚ
  q : ℕ → ℤ
  gamma : ℕ → ℚ
  tau : ℕ → ℚ
  r : ℕ × ℕ → ℚ
  g : ℕ × ℕ → ℤ
  e_rp : ℕ → ℤ
  L : ℕ → ℤ
  U : ℕ → ℤ
  D : ℕ → ℤ
  alpha : ℚ
  delta : ℚ
  theta : ℚ
  lam : ℚ
  mu : ℚ
  omega : ℤ
  zeta : ℤ
  M_big : ℚ
  eps : ℚ

/-- The value `float(sum(u.values()))` computed at the `rho_def`
constraint: the objectivity-flag dictionary has exactly the keys of `I`. -/
def sumU (d : MCDMData) : ℚ := (d.I.map d.u).sum

/-- An assignment of every decision variable of the Pyomo model: binary
selections and gates, pair indicators, the objectivity ratio, the
selected count, and all deviation variables. -/
structure Assign where
  x : ℕ → ℤ
  yc : ℕ → ℤ
  ym : ℕ → ℤ
  ys : ℕ → ℤ
  yce : ℕ → ℤ
  ya : ℕ → ℤ
  ycc : ℕ → ℤ
  h : ℕ × ℕ → ℤ
  t : ℕ × ℕ → ℤ
  rho : ℚ
  N : ℤ
  d1m : ℤ
  d1p : ℤ
  d2m : ℤ
  d2p : ℤ
  n : ℕ → ℤ
  do1m : ℕ → ℤ
  do1p : ℕ → ℤ
  do2m : ℕ → ℤ
  do2p : ℕ → ℤ

/-- Feasibility of an assignment for the model `build_mcdm_model`
constructs: the variable domain conditions plus every constraint family,
each field mirroring the identically named Pyomo constraint. -/
structure Feasible (d : MCDMData) (v : Assign) : Prop where
  x_bin : ∀ i ∈ d.I, v.x i = 0 ∨ v.x i = 1
  yc_bin : ∀ i ∈ d.I, v.yc i = 0 ∨ v.yc i = 1
  ym_bin : ∀ i ∈ d.I, v.ym i = 0 ∨ v.ym i = 1
  ys_bin : ∀ i ∈ d.I, v.ys i = 0 ∨ v.ys i = 1
  yce_bin : ∀ i ∈ d.I, v.yce i = 0 ∨ v.yce i = 1
  ya_bin : ∀ i ∈ d.I, v.ya i = 0 ∨ v.ya i = 1
  ycc_bin : ∀ i ∈ d.I, v.ycc i = 0 ∨ v.ycc i = 1
  h_bin : ∀ p ∈ d.pairs, v.h p = 0 ∨ v.h p = 1
  t_bin : ∀ p ∈ d.pairs, v.t p = 0 ∨ v.t p = 1
  rho_lb : 0 ≤ v.rho
  rho_ub : v.rho ≤ 1
  N_nonneg : 0 ≤ v.N
  d1m_nonneg : 0 ≤ v.d1m
  d1p_nonneg : 0 ≤ v.d1p
  d2m_nonneg : 0 ≤ v.d2m
  d2p_nonneg : 0 ≤ v.d2p
  n_nonneg : ∀ o ∈ d.O, 0 ≤ v.n o
  do1m_nonneg : ∀ o ∈ d.O, 0 ≤ v.do1m o
  do1p_nonneg : ∀ o ∈ d.O, 0 ≤ v.do1p o
  do2m_nonneg : ∀ o ∈ d.O, 0 ≤ v.do2m o
  do2p_nonneg : ∀ o ∈ d.O, 0 ≤ v.do2p o
  comp1 : ∀ i ∈ d.I, d.c i - d.alpha ≤ d.M_big * (v.yc i : ℚ) - d.eps
  comp2 : ∀ i ∈ d.I, d.c i - d.alpha ≥ -d.M_big * (1 - (v.yc i : ℚ)) - d.eps
  comp3 : ∀ i ∈ d.I, v.x i ≤ v.yc i
  N_def : v.N = (d.I.map v.x).sum
  rho_def : v.rho * sumU d = (d.I.map (fun i => d.u i * (v.x i : ℚ))).sum
  meas1 : ∀ i ∈ d.I, d.m i - d.gamma i ≤ d.M_big * (v.ym i : ℚ) - d.eps
  meas2 : ∀ i ∈ d.I, d.m i - d.gamma i ≥ -d.M_big * (1 - (v.ym i : ℚ)) - d.eps
  meas3 : ∀ i ∈ d.I, v.x i ≤ v.ym i
  sens1 : ∀ i ∈ d.I, d.s i - d.theta ≤ d.M_big * (v.ys i : ℚ)
  sens2 : ∀ i ∈ d.I, d.s i - d.theta ≥ d.eps - d.M_big * (1 - (v.ys i : ℚ))
  sens3 : ∀ i ∈ d.I, v.x i ≤ v.ys i
  cost1 : ∀ i ∈ d.I, d.ce i - d.tau i ≤ d.M_big * (v.yce i : ℚ) - d.eps
  cost2 : ∀ i ∈ d.I, d.ce i - d.tau i ≥ -d.M_big * (1 - (v.yce i : ℚ)) - d.eps
  cost3 : ∀ i ∈ d.I, v.x i ≤ v.yce i
  align1 : ∀ i ∈ d.I, d.a i - d.lam ≤ d.M_big * (v.ya i : ℚ) - d.eps
  align2 : ∀ i ∈ d.I, d.a i - d.lam ≥ -d.M_big * (1 - (v.ya i : ℚ)) - d.eps
  align3 : ∀ i ∈ d.I, v.x i ≤ v.ya i
  cog1 : ∀ i ∈ d.I, d.cc i - d.mu ≤ d.M_big * (v.ycc i : ℚ) - d.eps
  cog2 : ∀ i ∈ d.I, d.cc i - d.mu ≥ -d.M_big * (1 - (v.ycc i : ℚ)) - d.eps
  cog3 : ∀ i ∈ d.I, v.x i ≤ v.ycc i
  dist1 : ∀ p ∈ d.pairs, d.r p - d.delta ≤ d.M_big * (v.h p : ℚ) - d.eps
  dist2 : ∀ p ∈ d.pairs, d.r p - d.delta ≥ -d.M_big * (1 - (v.h p : ℚ)) - d.eps
  dist3 : ∀ p ∈ d.pairs, v.x p.1 + v.x p.2 ≤ 2 - v.h p
  par1 : v.N + v.d1m - v.d1p = d.omega
  par2 : v.N + v.d2m - v.d2p = d.zeta
  mono : ∀ i ∈ d.I, v.x i ≤ d.q i
  rep_count : ∀ o ∈ d.O, v.n o = (d.I.map (fun i => d.g (i, o) * v.x i)).sum
  coverage : ∀ o ∈ d.O, 1 ≤ v.n o
  rep_min : ∀ o ∈ d.O, v.n o + v.do1m o - v.do1p o = d.L o
  rep_max : ∀ o ∈ d.O, v.n o + v.do2m o - v.do2p o = d.U o
  rep_veto : ∀ i ∈ d.I, v.x i ≤ d.e_rp i
  t1 : ∀ p ∈ d.pairs, v.t p ≤ v.x p.1
  t2 : ∀ p ∈ d.pairs, v.t p ≤ v.x p.2
  t3 : ∀ p ∈ d.pairs, v.x p.1 + v.x p.2 - 1 ≤ v.t p

/-! ## Build-time behaviour of `build_mcdm_model`

The Pyomo model is built from a raw `data` dictionary; the dictionary
values are association lists here, since the source raises `KeyError`
when a constraint rule looks up a missing id, and raises
`ZeroDivisionError` when a divisor in the objective expression is zero
(Python float division for the metric shares, Pyomo expression division
for the deviation terms).  Every constraint family is constructed before
the objective, so all key lookups precede all divisions except the
deficit-bound lookups `D[o]`, which interleave with the `D[o]` divisions
inside the second representativeness penalty sum. -/

/-- Association-list lookup (a Python dict access that may fail). -/
def alookup {α β : Type} [DecidableEq α] : List (α × β) → α → Option β
  | [], _ => none
  | (k, v) :: t, k' => if k' = k then some v else alookup t k'

/-- Raw model inputs: the `data` dictionary handed to
`build_mcdm_model`, with the reader's precomputed metric totals. -/
structure RawData where
  I : List ℕ
  O : List ℕ
  pairs : List (ℕ × ℕ)
  c : List (ℕ × ℚ)
  u : List (ℕ × ℚ)
  m : List (ℕ × ℚ)
  s : List (ℕ × ℚ)
  ce : List (ℕ × ℚ)
  a : List (ℕ × ℚ)
  cc : List (ℕ × ℚ)
  q : List (ℕ × ℤ)
  gamma : List (ℕ × ℚ)
  tau : List (ℕ × ℚ)
  r : List ((ℕ × ℕ) × ℚ)
  g : List ((ℕ × ℕ) × ℤ)
  e_rp : List (ℕ × ℤ)
  L : List (ℕ × ℤ)
  U : List (ℕ × ℤ)
  D : List (ℕ × ℤ)
  alpha : ℚ
  delta : ℚ
  theta : ℚ
  lam : ℚ
  mu : ℚ
  omega : ℤ
  zeta : ℤ
  tot_c : ℚ
  tot_m : ℚ
  tot_s : ℚ
  tot_ce : ℚ
  tot_a : ℚ
  tot_cc : ℚ
  tot_r : ℚ
  M_big : ℚ
  eps : ℚ

/-- Build-time failures of `build_mcdm_model`: a dictionary or variable
indexed by a missing id (Python `KeyError`), or a zero divisor in the
objective expression (Python `ZeroDivisionError`). -/
inductive BuildErr where
  | keyErr : BuildErr
  | divZero : BuildErr
deriving DecidableEq

/-- All dictionary and variable-index lookups performed while the
constraint families are constructed: metric and flag lookups over `I`
(`comp`, `rho_def`, `meas`, `sens`, `cost`, `align`, `cog`, `mono`,
`rep_veto`), correlation and selection-variable lookups over the pairs
(`dist`), coverage lookups over `O × I` (`rep_count`) and band lookups
over `O` (`rep_min`, `rep_max`). -/
def keysOk (d : RawData) : Prop :=
  (∀ i ∈ d.I, (alookup d.c i).isSome ∧ (alookup d.u i).isSome ∧
    (alookup d.m i).isSome ∧ (alookup d.gamma i).isSome ∧
    (alookup d.s i).isSome ∧ (alookup d.ce i).isSome ∧
    (alookup d.tau i).isSome ∧ (alookup d.a i).isSome ∧
    (alookup d.cc i).isSome ∧ (alookup d.q i).isSome ∧
    (alookup d.e_rp i).isSome) ∧
  (∀ p ∈ d.pairs, (alookup d.r p).isSome ∧ p.1 ∈ d.I ∧ p.2 ∈ d.I) ∧
  (∀ o ∈ d.O, ∀ i ∈ d.I, (alookup d.g (i, o)).isSome) ∧
  (∀ o ∈ d.O, (alookup d.L o).isSome ∧ (alookup d.U o).isSome)

instance (d : RawData) : Decidable (keysOk d) := by
  unfold keysOk; infer_instance

/-- The six metric-share divisions of the `benefit` term: they are only
evaluated when the generator over `I` produces at least one term. -/
def benefitOk (d : RawData) : Prop :=
  d.I = [] ∨ (d.tot_c ≠ 0 ∧ d.tot_m ≠ 0 ∧ d.tot_s ≠ 0 ∧ d.tot_ce ≠ 0 ∧
    d.tot_a ≠ 0 ∧ d.tot_cc ≠ 0)

instance (d : RawData) : Decidable (benefitOk d) := by
  unfold benefitOk; infer_instance

/-- The second representativeness penalty sum: per objective, look up
`D[o]` (KeyError when missing) and divide by it (ZeroDivisionError when
zero), in list order. -/
def checkD (dD : List (ℕ × ℤ)) : List ℕ → Except BuildErr Unit
  | [] => .ok ()
  | o :: os =>
    match alookup dD o with
    | none => .error .keyErr
    | some val => if val = 0 then .error .divZero else checkD dD os

/-- The model data assembled on a successful build. -/
def assembleData (d : RawData) : MCDMData where
  I := d.I
  O := d.O
  pairs := d.pairs
  c := fun i => (alookup d.c i).getD 0
  u := fun i => (alookup d.u i).getD 0
  m := fun i => (alookup d.m i).getD 0
  s := fun i => (alookup d.s i).getD 0
  ce := fun i => (alookup d.ce i).getD 0
  a := fun i => (alookup d.a i).getD 0
  cc := fun i => (alookup d.cc i).getD 0
  q := fun i => (alookup d.q i).getD 0
  gamma := fun i => (alookup d.gamma i).getD 0
  tau := fun i => (alookup d.tau i).getD 0
  r := fun p => (alookup d.r p).getD 0
  g := fun p => (alookup d.g p).getD 0
  e_rp := fun i => (alookup d.e_rp i).getD 0
  L := fun o => (alookup d.L o).getD 0
  U := fun o => (alookup d.U o).getD 0
  D := fun o => (alookup d.D o).getD 0
  alpha := d.alpha
  delta := d.delta
  theta := d.theta
  lam := d.lam
  mu := d.mu
  omega := d.omega
  zeta := d.zeta
  M_big := d.M_big
  eps := d.eps

/-- `build_mcdm_model` as an `Except`-valued function: the constraint
lookups run first, then the objective's divisors in source order — the
six benefit totals (skipped when `I` is empty), the redundancy total
`tot_r` (`0 / 0.0` raises even with no pairs), the parsimony divisors
`ω` and `len(I) − ζ`, the per-objective `L[o]` divisors, the objective
count `O_card`, and finally the interleaved `D[o]` lookups and
divisors. -/
def buildModel (d : RawData) : Except BuildErr MCDMData :=
  if keysOk d then
    if benefitOk d then
      if d.tot_r ≠ 0 then
        if d.omega ≠ 0 then
          if (d.I.length : ℤ) - d.zeta ≠ 0 then
            if ∀ o ∈ d.O, (alookup d.L o).getD 0 ≠ 0 then
              if d.O ≠ [] then
                match checkD d.D d.O with
                | .error e => .error e
                | .ok _ => .ok (assembleData d)
              else .error .divZero
            else .error .divZero
          else .error .divZero
        else .error .divZero
      else .error .divZero
    else .error .divZero
  else .error .keyErr

/-- Structural validity in the sense of the specification: a non-empty
criterion set and objective set, every dictionary populated on its index
set, and every pair referencing known criterion ids. -/
def structuralValid (d : RawData) : Prop :=
  d.I ≠ [] ∧ d.O ≠ [] ∧ keysOk d ∧ (∀ o ∈ d.O, (alookup d.D o).isSome)

/-! ## Concrete model instances

`exData` is a small two-criterion, one-objective instance of the kind
the reader produces (`M_big = 10000`, `eps = 1e-6`, `L = 1`, `U = 2`):
criterion 1 sits exactly at the sensitivity threshold `θ` while
criterion 2 sits exactly at the five other thresholds; the pair is
highly correlated (`r = 0.9 ≥ δ = 0.75`).  `exAssign` selects exactly
criterion 2.  `exDataLow` lowers criterion 2's completeness to
`α - ε`, strictly below the threshold. -/

def exData : MCDMData where
  I := [1, 2]
  O := [1]
  pairs := [(1, 2)]
  c := fun i => if i = 1 then 1 else 1 / 2
  u := fun i => if i = 1 then 0 else 1
  m := fun i => if i = 1 then 1 else 1 / 2
  s := fun i => if i = 1 then 1 / 10 else 1
  ce := fun i => if i = 1 then 1 else 1 / 2
  a := fun i => if i = 1 then 1 else 1 / 2
  cc := fun i => if i = 1 then 1 else 1 / 2
  q := fun _ => 1
  gamma := fun _ => 1 / 2
  tau := fun _ => 1 / 2
  r := fun _ => 9 / 10
  g := fun _ => 1
  e_rp := fun _ => 1
  L := fun _ => 1
  U := fun _ => 2
  D := fun _ => 1
  alpha := 1 / 2
  delta := 3 / 4
  theta := 1 / 10
  lam := 1 / 2
  mu := 1 / 2
  omega := 1
  zeta := 1
  M_big := 10000
  eps := 1 / 1000000

def exAssign : Assign where
  x := fun i => if i = 1 then 0 else 1
  yc := fun _ => 1
  ym := fun _ => 1
  ys := fun i => if i = 1 then 0 else 1
  yce := fun _ => 1
  ya := fun _ => 1
  ycc := fun _ => 1
  h := fun _ => 1
  t := fun _ => 0
  rho := 1
  N := 1
  d1m := 0
  d1p := 0
  d2m := 0
  d2p := 0
  n := fun _ => 1
  do1m := fun _ => 0
  do1p := fun _ => 0
  do2m := fun _ => 1
  do2p := fun _ => 0

/-- `exData` with criterion 2's completeness lowered to `α - ε`. -/
def exDataLow : MCDMData :=
  { exData with c := fun i => if i = 1 then 1 else 1 / 2 - 1 / 1000000 }

/-- A structurally valid single-criterion raw input on which the build
succeeds: every dictionary populated, all divisor quantities nonzero. -/
def rawGood : RawData where
  I := [1]
  O := [1]
  pairs := []
  c := [(1, 1)]
  u := [(1, 1)]
  m := [(1, 1)]
  s := [(1, 1)]
  ce := [(1, 1)]
  a := [(1, 1)]
  cc := [(1, 1)]
  q := [(1, 1)]
  gamma := [(1, 1 / 2)]
  tau := [(1, 1 / 2)]
  r := []
  g := [((1, 1), 1)]
  e_rp := [(1, 1)]
  L := [(1, 1)]
  U := [(1, 2)]
  D := [(1, 1)]
  alpha := 1 / 2
  delta := 3 / 4
  theta := 1 / 10
  lam := 1 / 2
  mu := 1 / 2
  omega := 1
  zeta := 2
  tot_c := 1
  tot_m := 1
  tot_s := 1
  tot_ce := 1
  tot_a := 1
  tot_cc := 1
  tot_r := 1
  M_big := 10000
  eps := 1 / 1000000

/-- `rawGood` with an all-zero completeness column, hence a zero
completeness total `tot_c` — structurally valid data on which the build
divides by zero. -/
def rawZeroTotal : RawData :=
  { rawGood with c := [(1, 0)], tot_c := 0 }

/-! ## Helper lemmas -/

/-- The example assignment is feasible for the example data. -/
theorem exFeasible : Feasible exData exAssign := by
  constructor <;> (simp [exData, exAssign, sumU]; try norm_num)

/-- The example assignment stays feasible when criterion 2's
completeness drops to `α - ε`: the ε-slack of the completeness gate
still admits `yc = 1`. -/
theorem exFeasibleLow : Feasible exDataLow exAssign := by
  constructor <;> (simp [exDataLow, exData, exAssign, sumU]; try norm_num)

/-- An integer that bounds a variable equal to 1 from above and is
itself 0 or 1 must be 1. -/
theorem binary_eq_one {a b : ℤ} (hb : b = 0 ∨ b = 1) (hab : a ≤ b)
    (ha : a = 1) : b = 1 := by omega

/-- Sum of a list of nonneg rationals is zero only if every element is. -/
theorem sum_map_eq_zero {l : List ℕ} {f : ℕ → ℚ}
    (h0 : ∀ i ∈ l, 0 ≤ f i) (hs : (l.map f).sum = 0) :
    ∀ i ∈ l, f i = 0 := by
  induction l with
  | nil => simp
  | cons a t ih =>
    simp only [List.map_cons, List.sum_cons] at hs
    have ha : 0 ≤ f a := h0 a (by simp)
    have ht : 0 ≤ (t.map f).sum :=
      List.sum_nonneg (by
        intro x hx
        obtain ⟨i, hi, rfl⟩ := List.mem_map.mp hx
        exact h0 i (by simp [hi]))
    intro i hi
    rcases List.mem_cons.mp hi with rfl | hit
    · linarith
    · exact ih (fun j hj => h0 j (by simp [hj])) (by linarith) i hit

/-! ## Claim theorems -/

/-- C1 (amended): in every feasible assignment of the built model,
`x[i] = 1` forces all six admissibility gates to 1, forces the
completeness, measurability, cost-effectiveness, alignment and
cognitive-coherence metrics to be at least their (type-dependent)
thresholds minus the tolerance `ε`, forces the sensitivity elasticity to
exceed `θ` by at least `ε`, and forces the monotonicity-unanimity and
representativeness flags (binary by the data contract) to 1. -/
theorem C1_gate_invariant (d : MCDMData) (v : Assign) (i : ℕ)
    (hf : Feasible d v) (hi : i ∈ d.I)
    (hq : d.q i = 0 ∨ d.q i = 1) (he : d.e_rp i = 0 ∨ d.e_rp i = 1)
    (hx : v.x i = 1) :
    v.yc i = 1 ∧ v.ym i = 1 ∧ v.ys i = 1 ∧ v.yce i = 1 ∧ v.ya i = 1 ∧
    v.ycc i = 1 ∧
    d.c i ≥ d.alpha - d.eps ∧ d.m i ≥ d.gamma i - d.eps ∧
    d.s i ≥ d.theta + d.eps ∧ d.ce i ≥ d.tau i - d.eps ∧
    d.a i ≥ d.lam - d.eps ∧ d.cc i ≥ d.mu - d.eps ∧
    d.q i = 1 ∧ d.e_rp i = 1 := by
  have hyc := binary_eq_one (hf.yc_bin i hi) (hf.comp3 i hi) hx
  have hym := binary_eq_one (hf.ym_bin i hi) (hf.meas3 i hi) hx
  have hys := binary_eq_one (hf.ys_bin i hi) (hf.sens3 i hi) hx
  have hyce := binary_eq_one (hf.yce_bin i hi) (hf.cost3 i hi) hx
  have hya := binary_eq_one (hf.ya_bin i hi) (hf.align3 i hi) hx
  have hycc := binary_eq_one (hf.ycc_bin i hi) (hf.cog3 i hi) hx
  have hc := hf.comp2 i hi
  have hm := hf.meas2 i hi
  have hs := hf.sens2 i hi
  have hce := hf.cost2 i hi
  have ha := hf.align2 i hi
  have hcc := hf.cog2 i hi
  rw [hyc] at hc; rw [hym] at hm; rw [hys] at hs
  rw [hyce] at hce; rw [hya] at ha; rw [hycc] at hcc
  norm_num at hc hm hs hce ha hcc
  have hq1 : d.q i = 1 := by have := hf.mono i hi; omega
  have he1 : d.e_rp i = 1 := by have := hf.rep_veto i hi; omega
  exact ⟨hyc, hym, hys, hyce, hya, hycc, by linarith, by linarith, by linarith,
    by linarith, by linarith, by linarith, hq1, he1⟩

/-- C1 counterexample: the claim as stated fails — in `exDataLow` the
assignment `exAssign` is feasible and selects criterion 2 although its
completeness metric is strictly below the threshold `α` (by the
tolerance `ε` the big-M gate admits). -/
theorem C1_counterexample :
    Feasible exDataLow exAssign ∧ exAssign.x 2 = 1 ∧
    exDataLow.c 2 < exDataLow.alpha := by
  refine ⟨exFeasibleLow, rfl, ?_⟩
  norm_num [exDataLow, exData]

/-- C1 witness: the amended gate invariant evaluated on the concrete
feasible instance, at the selected criterion 2. -/
theorem C1_witness :
    exAssign.yc 2 = 1 ∧ exAssign.ym 2 = 1 ∧ exAssign.ys 2 = 1 ∧
    exAssign.yce 2 = 1 ∧ exAssign.ya 2 = 1 ∧ exAssign.ycc 2 = 1 ∧
    exData.c 2 ≥ exData.alpha - exData.eps ∧
    exData.m 2 ≥ exData.gamma 2 - exData.eps ∧
    exData.s 2 ≥ exData.theta + exData.eps ∧
    exData.ce 2 ≥ exData.tau 2 - exData.eps ∧
    exData.a 2 ≥ exData.lam - exData.eps ∧
    exData.cc 2 ≥ exData.mu - exData.eps ∧
    exData.q 2 = 1 ∧ exData.e_rp 2 = 1 :=
  C1_gate_invariant exData exAssign 2 exFeasible (by decide)
    (Or.inr rfl) (Or.inr rfl) rfl

/-- C2: for every pair with pooled correlation at least the
distinctiveness threshold `δ`, every feasible assignment selects at most
one of the two criteria. -/
theorem C2_distinct_exclusion (d : MCDMData) (v : Assign) (i k : ℕ)
    (hf : Feasible d v) (hp : (i, k) ∈ d.pairs) (heps : 0 < d.eps)
    (hr : d.r (i, k) ≥ d.delta) : v.x i + v.x k ≤ 1 := by
  have h1 := hf.dist1 (i, k) hp
  have h3 : v.x i + v.x k ≤ 2 - v.h (i, k) := hf.dist3 (i, k) hp
  rcases hf.h_bin (i, k) hp with h0 | h0
  · rw [h0] at h1
    norm_num at h1
    exfalso; linarith
  · rw [h0] at h3
    omega

/-- C2 witness: on the concrete instance the pair (1,2) has correlation
`0.9 ≥ δ = 0.75` and indeed at most one of the two is selected. -/
theorem C2_witness : exAssign.x 1 + exAssign.x 2 ≤ 1 :=
  C2_distinct_exclusion exData exAssign 1 2 exFeasible (by decide)
    (by norm_num [exData]) (by norm_num [exData])

/-- C5: in every feasible assignment `N` is the number of selected
criteria and the two goal-programming equalities hold with nonnegative
integer deviations; moreover the band is soft — every nonnegative value
of `N` admits nonnegative deviations satisfying both equalities, for any
`ω` and `ζ`. -/
theorem C5_parsimony_band :
    (∀ (d : MCDMData) (v : Assign), Feasible d v →
      v.N = (d.I.map v.x).sum ∧
      v.N + v.d1m - v.d1p = d.omega ∧ v.N + v.d2m - v.d2p = d.zeta ∧
      0 ≤ v.d1m ∧ 0 ≤ v.d1p ∧ 0 ≤ v.d2m ∧ 0 ≤ v.d2p) ∧
    (∀ Nv w z : ℤ, 0 ≤ Nv → ∃ e1m e1p e2m e2p : ℤ,
      0 ≤ e1m ∧ 0 ≤ e1p ∧ 0 ≤ e2m ∧ 0 ≤ e2p ∧
      Nv + e1m - e1p = w ∧ Nv + e2m - e2p = z) := by
  constructor
  · intro d v hf
    exact ⟨hf.N_def, hf.par1, hf.par2, hf.d1m_nonneg, hf.d1p_nonneg,
      hf.d2m_nonneg, hf.d2p_nonneg⟩
  · intro Nv w z _
    refine ⟨max (w - Nv) 0, max (Nv - w) 0, max (z - Nv) 0, max (Nv - z) 0,
      le_max_right _ _, le_max_right _ _, le_max_right _ _, le_max_right _ _,
      by omega, by omega⟩

/-- C5 witness: the parsimony invariant on the concrete feasible
instance, and soft deviations for the concrete target `N = 5`, `ω = 2`,
`ζ = 9`. -/
theorem C5_witness :
    (exAssign.N = (exData.I.map exAssign.x).sum ∧
      exAssign.N + exAssign.d1m - exAssign.d1p = exData.omega ∧
      exAssign.N + exAssign.d2m - exAssign.d2p = exData.zeta ∧
      0 ≤ exAssign.d1m ∧ 0 ≤ exAssign.d1p ∧ 0 ≤ exAssign.d2m ∧
      0 ≤ exAssign.d2p) ∧
    (∃ e1m e1p e2m e2p : ℤ,
      0 ≤ e1m ∧ 0 ≤ e1p ∧ 0 ≤ e2m ∧ 0 ≤ e2p ∧
      (5 : ℤ) + e1m - e1p = 2 ∧ (5 : ℤ) + e2m - e2p = 9) :=
  ⟨C5_parsimony_band.1 exData exAssign exFeasible,
   C5_parsimony_band.2 5 2 9 (by norm_num)⟩

/-- C6: in every feasible assignment, each objective's selected count
`n[o]` equals `Σ g[(i,o)]·x[i]`, meets the hard coverage bound
`n[o] ≥ 1`, and satisfies both band equalities against `L(o)` and `U(o)`
with nonnegative integer deviation pairs. -/
theorem C6_coverage_band (d : MCDMData) (v : Assign) (o : ℕ)
    (hf : Feasible d v) (ho : o ∈ d.O) :
    v.n o = (d.I.map (fun i => d.g (i, o) * v.x i)).sum ∧
    1 ≤ v.n o ∧
    v.n o + v.do1m o - v.do1p o = d.L o ∧
    v.n o + v.do2m o - v.do2p o = d.U o ∧
    0 ≤ v.do1m o ∧ 0 ≤ v.do1p o ∧ 0 ≤ v.do2m o ∧ 0 ≤ v.do2p o :=
  ⟨hf.rep_count o ho, hf.coverage o ho, hf.rep_min o ho, hf.rep_max o ho,
   hf.do1m_nonneg o ho, hf.do1p_nonneg o ho, hf.do2m_nonneg o ho,
   hf.do2p_nonneg o ho⟩

/-- C6 witness: the representativeness invariant evaluated on the
concrete feasible instance at objective 1. -/
theorem C6_witness :
    exAssign.n 1 = (exData.I.map (fun i => exData.g (i, 1) * exAssign.x i)).sum ∧
    1 ≤ exAssign.n 1 ∧
    exAssign.n 1 + exAssign.do1m 1 - exAssign.do1p 1 = exData.L 1 ∧
    exAssign.n 1 + exAssign.do2m 1 - exAssign.do2p 1 = exData.U 1 ∧
    0 ≤ exAssign.do1m 1 ∧ 0 ≤ exAssign.do1p 1 ∧ 0 ≤ exAssign.do2m 1 ∧
    0 ≤ exAssign.do2p 1 :=
  C6_coverage_band exData exAssign 1 exFeasible (by decide)

/-- C8: when `Σu > 0`, every feasible `ρ` equals `(Σ u[i]·x[i]) / Σu`;
when the binary objectivity flags sum to zero, the defining constraint
`ρ·Σu = Σ u[i]·x[i]` is satisfied by every value of `ρ`, so it does not
determine `ρ`. -/
theorem C8_objectivity_value (d : MCDMData) (v : Assign)
    (hf : Feasible d v) :
    (0 < sumU d →
      v.rho = (d.I.map (fun i => d.u i * (v.x i : ℚ))).sum / sumU d) ∧
    ((∀ i ∈ d.I, d.u i = 0 ∨ d.u i = 1) → sumU d = 0 →
      ∀ p : ℚ, p * sumU d = (d.I.map (fun i => d.u i * (v.x i : ℚ))).sum) := by
  constructor
  · intro hpos
    rw [eq_div_iff (ne_of_gt hpos)]
    exact hf.rho_def
  · intro hbin hzero p
    have hall : ∀ i ∈ d.I, d.u i = 0 := by
      refine sum_map_eq_zero ?_ hzero
      intro i hi
      rcases hbin i hi with h | h <;> simp [h]
    have hrhs : (d.I.map (fun i => d.u i * (v.x i : ℚ))).sum = 0 := by
      apply List.sum_eq_zero
      intro x hx
      obtain ⟨i, hi, rfl⟩ := List.mem_map.mp hx
      rw [hall i hi, zero_mul]
    rw [hzero, hrhs, mul_zero]

/-- C8 witness: on the concrete instance `Σu = 1 > 0` and the feasible
`ρ` equals the ratio `(Σ u[i]·x[i]) / Σu = 1`. -/
theorem C8_witness :
    exAssign.rho =
      (exData.I.map (fun i => exData.u i * (exAssign.x i : ℚ))).sum /
        sumU exData :=
  (C8_objectivity_value exData exAssign exFeasible).1
    (by norm_num [sumU, exData])

/-- C10: exact threshold equality is asymmetric — a feasible assignment
with sensitivity exactly `θ` has its sensitivity gate forced to 0 (and
the criterion deselected), while equality at any of the five other
thresholds forces the corresponding gate to 1. -/
theorem C10_threshold_equality (d : MCDMData) (v : Assign) (i : ℕ)
    (hf : Feasible d v) (hi : i ∈ d.I) (heps : 0 < d.eps) :
    (d.s i = d.theta → v.ys i = 0 ∧ v.x i = 0) ∧
    (d.c i = d.alpha → v.yc i = 1) ∧
    (d.m i = d.gamma i → v.ym i = 1) ∧
    (d.ce i = d.tau i → v.yce i = 1) ∧
    (d.a i = d.lam → v.ya i = 1) ∧
    (d.cc i = d.mu → v.ycc i = 1) := by
  refine ⟨?_, ?_, ?_, ?_, ?_, ?_⟩
  · intro hs
    rcases hf.ys_bin i hi with h | h
    · refine ⟨h, ?_⟩
      have h3 := hf.sens3 i hi
      have hxb := hf.x_bin i hi
      omega
    · exfalso
      have h2 := hf.sens2 i hi
      rw [h] at h2
      norm_num at h2
      linarith [hs ▸ h2]
  · intro hc
    rcases hf.yc_bin i hi with h | h
    · exfalso
      have h1 := hf.comp1 i hi
      rw [h] at h1
      norm_num at h1
      linarith [hc ▸ h1]
    · exact h
  · intro hm
    rcases hf.ym_bin i hi with h | h
    · exfalso
      have h1 := hf.meas1 i hi
      rw [h] at h1
      norm_num at h1
      linarith [hm ▸ h1]
    · exact h
  · intro hce
    rcases hf.yce_bin i hi with h | h
    · exfalso
      have h1 := hf.cost1 i hi
      rw [h] at h1
      norm_num at h1
      linarith [hce ▸ h1]
    · exact h
  · intro ha
    rcases hf.ya_bin i hi with h | h
    · exfalso
      have h1 := hf.align1 i hi
      rw [h] at h1
      norm_num at h1
      linarith [ha ▸ h1]
    · exact h
  · intro hcc
    rcases hf.ycc_bin i hi with h | h
    · exfalso
      have h1 := hf.cog1 i hi
      rw [h] at h1
      norm_num at h1
      linarith [hcc ▸ h1]
    · exact h

/-- C3 (code bug): on a one-expert workbook whose first criterion column
is constant (`[[1, 1], [1, 2]]`), the per-expert Pearson correlation of
the pair (0,1) is undefined, the code's pooling propagates the undefined
value (NaN) into the model — while the specification requires the
defined sentinel `0`. -/
theorem C3_nan_propagation :
    pooledCorrCode [[[1, 1], [1, 2]]] 0 1 = none ∧
    pooledCorrSpec [[[1, 1], [1, 2]]] 0 1 = some 0 := by
  constructor <;>
    norm_num [pooledCorrCode, pooledCorrSpec, perExpertCorr, pearsonAbsSq,
      column, covS, dotQ, meanQ, medianQ, List.insertionSort, List.orderedInsert]

/-- C9: for every uploaded workbook the reader sets the
representativeness band to `L(o) = 1` and `U(o) = 2` for every objective
`o`, independently of the consolidated assignment matrix, and the
deficit bound is `D(o) = max(1, targetCoverage(o) − 2)` where
`targetCoverage(o)` is the column sum of the consolidated matrix. -/
theorem C9_band_constants (gm : List (List ℤ)) (o : ℕ) :
    templateL o = 1 ∧ templateU o = 2 ∧
    templateD gm o = max 1 ((gm.map (fun row => row.getD (o - 1) 0)).sum - 2) :=
  ⟨rfl, rfl, rfl⟩

/-- C9 witness: the band constants evaluated on a concrete consolidated
matrix with four criteria mapped to objective 1. -/
theorem C9_witness :
    templateL 1 = 1 ∧ templateU 1 = 2 ∧
    templateD [[1], [1], [1], [1]] 1 =
      max 1 (([[(1 : ℤ)], [1], [1], [1]].map (fun row => row.getD 0 0)).sum - 2) :=
  C9_band_constants [[1], [1], [1], [1]] 1

/-- C10 witness: on the concrete feasible instance, criterion 1 sits
exactly at `θ` and is forced out, while criterion 2 sits exactly at `α`
and its completeness gate is forced to 1. -/
theorem C10_witness :
    (exAssign.ys 1 = 0 ∧ exAssign.x 1 = 0) ∧ exAssign.yc 2 = 1 :=
  ⟨(C10_threshold_equality exData exAssign 1 exFeasible (by decide)
      (by norm_num [exData])).1 (by norm_num [exData]),
   (C10_threshold_equality exData exAssign 2 exFeasible (by decide)
      (by norm_num [exData])).2.1 (by norm_num [exData])⟩

/-- A fold of `min` never exceeds its initial accumulator. -/
theorem foldl_min_le_init (xs : List ℚ) (a : ℚ) : xs.foldl min a ≤ a := by
  induction xs generalizing a with
  | nil => simp
  | cons y ys ih => exact le_trans (ih (min a y)) (min_le_left a y)

/-- A fold of `min` never exceeds any list element. -/
theorem foldl_min_le_mem {xs : List ℚ} {x : ℚ} (hx : x ∈ xs) (a : ℚ) :
    xs.foldl min a ≤ x := by
  induction xs generalizing a with
  | nil => cases hx
  | cons y ys ih =>
    rcases List.mem_cons.mp hx with rfl | h
    · exact le_trans (foldl_min_le_init ys (min a x)) (min_le_right a x)
    · exact ih h (min a y)

/-- The column minimum bounds every column value from below. -/
theorem minD_le {xs : List ℚ} {x : ℚ} (hx : x ∈ xs) : minD xs ≤ x := by
  cases xs with
  | nil => cases hx
  | cons y ys =>
    rcases List.mem_cons.mp hx with rfl | h
    · exact foldl_min_le_init ys x
    · exact foldl_min_le_mem h y

/-- A fold of `max` is at least its initial accumulator. -/
theorem le_foldl_max_init (xs : List ℚ) (a : ℚ) : a ≤ xs.foldl max a := by
  induction xs generalizing a with
  | nil => simp
  | cons y ys ih => exact le_trans (le_max_left a y) (ih (max a y))

/-- A fold of `max` is at least any list element. -/
theorem le_foldl_max_mem {xs : List ℚ} {x : ℚ} (hx : x ∈ xs) (a : ℚ) :
    x ≤ xs.foldl max a := by
  induction xs generalizing a with
  | nil => cases hx
  | cons y ys ih =>
    rcases List.mem_cons.mp hx with rfl | h
    · exact le_trans (le_max_right a x) (le_foldl_max_init ys (max a x))
    · exact ih h (max a y)

/-- The column maximum bounds every column value from above. -/
theorem le_maxD {xs : List ℚ} {x : ℚ} (hx : x ∈ xs) : x ≤ maxD xs := by
  cases xs with
  | nil => cases hx
  | cons y ys =>
    rcases List.mem_cons.mp hx with rfl | h
    · exact le_foldl_max_init ys x
    · exact le_foldl_max_mem h y

/-- Direction-aware normalization maps a column value to a nonnegative
number. -/
theorem normEntry_nonneg {colVals : List ℚ} {v : ℚ} (b : Bool)
    (hv : v ∈ colVals) : 0 ≤ normEntry colVals b v := by
  have h1 : minD colVals ≤ v := minD_le hv
  have h2 : v ≤ maxD colVals := le_maxD hv
  unfold normEntry
  split
  · norm_num
  · next hne =>
    have hlt : 0 < maxD colVals - minD colVals :=
      sub_pos.mpr (lt_of_le_of_ne (le_trans h1 h2) (fun h => hne h.symm))
    split
    · exact div_nonneg (by linarith) (by linarith)
    · exact div_nonneg (by linarith) (by linarith)

/-- Every entry of a normalized decision matrix is nonnegative. -/
theorem normalizeMatrix_nonneg (nc : ℕ) (m : List (List ℚ))
    (types : List String) :
    ∀ row ∈ normalizeMatrix nc m types, ∀ x ∈ row, 0 ≤ x := by
  intro row hrow x hx
  simp only [normalizeMatrix, List.mem_map] at hrow
  obtain ⟨r, hr, rfl⟩ := hrow
  simp only [List.mem_map, List.mem_range] at hx
  obtain ⟨j, _, rfl⟩ := hx
  exact normEntry_nonneg _ (List.mem_map_of_mem _ hr)

/-- A dot product of componentwise-nonnegative vectors is nonnegative. -/
theorem dotQ_nonneg : ∀ (xs ys : List ℚ), (∀ x ∈ xs, 0 ≤ x) →
    (∀ y ∈ ys, 0 ≤ y) → 0 ≤ dotQ xs ys := by
  intro xs
  induction xs with
  | nil => intro ys _ _; simp [dotQ]
  | cons x xs ih =>
    intro ys hx hy
    cases ys with
    | nil => simp [dotQ]
    | cons y ys =>
      have h1 : 0 ≤ x * y := mul_nonneg (hx x (by simp)) (hy y (by simp))
      have h2 : 0 ≤ dotQ xs ys :=
        ih ys (fun a ha => hx a (by simp [ha])) (fun a ha => hy a (by simp [ha]))
      simpa [dotQ] using add_nonneg h1 h2

/-- Pulling a constant factor out of a mapped sum. -/
theorem sum_map_mul_const (l : List ℚ) (k : ℚ) :
    (l.map (· * k)).sum = l.sum * k := by
  induction l with
  | nil => simp
  | cons x xs ih => simp [ih, add_mul]

/-- On a componentwise-nonnegative normalized matrix and nonnegative
weights, the code's per-draw elasticity (`total > 0` test) agrees with
the claim's (`total = 0` test): the total score cannot be negative. -/
theorem elasticityDraw_eq (nc : ℕ) (nm : List (List ℚ)) (w : List ℚ)
    (hnm : ∀ row ∈ nm, ∀ x ∈ row, 0 ≤ x) (hw : ∀ x ∈ w, 0 ≤ x) :
    elasticityDraw nc nm w = elasticityDrawSpec nc nm w := by
  have htot : 0 ≤ (nm.map (fun row => dotQ row w)).sum := by
    apply List.sum_nonneg
    intro x hx
    obtain ⟨row, hrow, rfl⟩ := List.mem_map.mp hx
    exact dotQ_nonneg row w (hnm row hrow) hw
  unfold elasticityDraw elasticityDrawSpec
  by_cases h0 : (nm.map (fun row => dotQ row w)).sum = 0
  · rw [h0]; norm_num
  · have hpos : 0 < (nm.map (fun row => dotQ row w)).sum :=
      lt_of_le_of_ne htot (Ne.symm h0)
    rw [if_pos hpos, if_neg h0]
    apply List.map_congr_left
    intro j _
    rw [sum_map_mul_const]
    ring

/-- C4: the code's sensitivity pipeline — direction-aware column
normalization, a fixed deterministically-seeded batch of Dirichlet
weight draws (the `draws` parameter), per-draw elasticity as weighted
contribution over total (zero total giving zero), averaged over draws
then over experts — coincides with the claimed formulation on every
input whose weight draws are nonnegative (as Dirichlet draws are);
being a pure function of the matrices, types and seeded draw sequence,
it returns identical values on identical inputs. -/
theorem C4_sensitivity_structure (nc : ℕ) (ms : List (List (List ℚ)))
    (types : List String) (draws : List (List ℚ))
    (hw : ∀ w ∈ draws, ∀ x ∈ w, 0 ≤ x) :
    sensitivityCode nc ms types draws = sensitivitySpec nc ms types draws := by
  unfold sensitivityCode sensitivitySpec sensitivityExpert
  congr 1
  apply List.map_congr_left
  intro m _
  congr 1
  apply List.map_congr_left
  intro w hwmem
  exact elasticityDraw_eq nc (normalizeMatrix nc m types) w
    (normalizeMatrix_nonneg nc m types) (hw w hwmem)

/-- C4 witness: the pipeline agreement evaluated on a concrete
one-expert, two-criteria, two-alternative matrix and one uniform draw. -/
theorem C4_witness :
    sensitivityCode 2 [[[0, 1], [2, 3]]] ["Benefit", "Cost"]
        [[1 / 2, 1 / 2]] =
      sensitivitySpec 2 [[[0, 1], [2, 3]]] ["Benefit", "Cost"]
        [[1 / 2, 1 / 2]] :=
  C4_sensitivity_structure 2 [[[0, 1], [2, 3]]] ["Benefit", "Cost"]
    [[1 / 2, 1 / 2]] (by norm_num)

/-- Success of the interleaved deficit-bound pass: all `D` keys present
with nonzero values. -/
theorem checkD_ok (dD : List (ℕ × ℤ)) (os : List ℕ) :
    checkD dD os = .ok () ↔
      ∀ o ∈ os, (alookup dD o).isSome ∧ (alookup dD o).getD 0 ≠ 0 := by
  induction os with
  | nil => simp [checkD]
  | cons o os ih =>
    rw [checkD]
    cases h : alookup dD o with
    | none => simp [h, List.forall_mem_cons]
    | some val =>
      by_cases hv : val = 0
      · subst hv
        simp [h, List.forall_mem_cons]
      · simp [h, hv, ih, List.forall_mem_cons]

/-- The example raw input is structurally valid. -/
theorem rawGood_valid : structuralValid rawGood := by
  unfold structuralValid keysOk
  refine ⟨by simp [rawGood], by simp [rawGood], ⟨?_, ?_, ?_, ?_⟩, ?_⟩
  · intro i hi
    simp only [rawGood, List.mem_singleton] at hi
    subst hi
    simp [rawGood, alookup]
  · intro p hp
    simp [rawGood] at hp
  · intro o ho i hi
    simp only [rawGood, List.mem_singleton] at ho hi
    subst ho
    subst hi
    simp [rawGood, alookup]
  · intro o ho
    simp only [rawGood, List.mem_singleton] at ho
    subst ho
    simp [rawGood, alookup]
  · intro o ho
    simp only [rawGood, List.mem_singleton] at ho
    subst ho
    simp [rawGood, alookup]

/-- The zero-total raw input is structurally valid. -/
theorem rawZeroTotal_valid : structuralValid rawZeroTotal := by
  unfold structuralValid keysOk
  refine ⟨by simp [rawZeroTotal, rawGood], by simp [rawZeroTotal, rawGood],
    ⟨?_, ?_, ?_, ?_⟩, ?_⟩
  · intro i hi
    simp only [rawZeroTotal, rawGood, List.mem_singleton] at hi
    subst hi
    simp [rawZeroTotal, rawGood, alookup]
  · intro p hp
    simp [rawZeroTotal, rawGood] at hp
  · intro o ho i hi
    simp only [rawZeroTotal, rawGood, List.mem_singleton] at ho hi
    subst ho
    subst hi
    simp [rawZeroTotal, rawGood, alookup]
  · intro o ho
    simp only [rawZeroTotal, rawGood, List.mem_singleton] at ho
    subst ho
    simp [rawZeroTotal, rawGood, alookup]
  · intro o ho
    simp only [rawZeroTotal, rawGood, List.mem_singleton] at ho
    subst ho
    simp [rawZeroTotal, rawGood, alookup]

/-- C7 (amended): on structurally valid raw data the build succeeds if
and only if every divisor of the objective expression is nonzero — the
six metric totals, the correlation total, `ω`, `len(I) − ζ`, and every
objective's `L(o)` and `D(o)`; so build-time failure is not limited to
structurally invalid inputs. -/
theorem C7_build_success (d : RawData) (hs : structuralValid d) :
    (∃ md, buildModel d = .ok md) ↔
      (d.tot_c ≠ 0 ∧ d.tot_m ≠ 0 ∧ d.tot_s ≠ 0 ∧ d.tot_ce ≠ 0 ∧
       d.tot_a ≠ 0 ∧ d.tot_cc ≠ 0 ∧ d.tot_r ≠ 0 ∧ d.omega ≠ 0 ∧
       (d.I.length : ℤ) ≠ d.zeta ∧
       (∀ o ∈ d.O, (alookup d.L o).getD 0 ≠ 0) ∧
       (∀ o ∈ d.O, (alookup d.D o).getD 0 ≠ 0)) := by
  obtain ⟨hI, hO, hkeys, hD⟩ := hs
  unfold buildModel
  rw [if_pos hkeys]
  constructor
  · rintro ⟨md, hmd⟩
    split_ifs at hmd with h1 h2 h3 h4 h5
    · have hcd : ∀ o ∈ d.O, (alookup d.D o).isSome ∧
          (alookup d.D o).getD 0 ≠ 0 := by
        rw [← checkD_ok]
        cases hc : checkD d.D d.O with
        | error e => rw [hc] at hmd; simp at hmd
        | ok u => cases u; rfl
      rcases h1 with h1' | h1'
      · exact absurd h1' hI
      · exact ⟨h1'.1, h1'.2.1, h1'.2.2.1, h1'.2.2.2.1, h1'.2.2.2.2.1,
          h1'.2.2.2.2.2, h2, h3, by omega, h5, fun o ho => (hcd o ho).2⟩
  · rintro ⟨t1, t2, t3, t4, t5, t6, t7, t8, t9, t10, t11⟩
    rw [if_pos (show benefitOk d from Or.inr ⟨t1, t2, t3, t4, t5, t6⟩)]
    rw [if_pos t7, if_pos t8]
    rw [if_pos (show (d.I.length : ℤ) - d.zeta ≠ 0 by omega)]
    rw [if_pos t10, if_pos hO]
    rw [(checkD_ok d.D d.O).mpr (fun o ho => ⟨hD o ho, t11 o ho⟩)]
    exact ⟨assembleData d, rfl⟩

/-- C7 counterexample: the claim as stated fails — `rawZeroTotal` is
structurally valid (non-empty criterion and objective sets, all
dictionaries populated, no dangling pair), yet the build fails with a
zero divisor, because its completeness total is zero. -/
theorem C7_counterexample :
    structuralValid rawZeroTotal ∧
      buildModel rawZeroTotal = .error .divZero := by
  refine ⟨rawZeroTotal_valid, ?_⟩
  unfold buildModel
  rw [if_pos rawZeroTotal_valid.2.2.1]
  rw [if_neg (show ¬ benefitOk rawZeroTotal by
    simp [benefitOk, rawZeroTotal, rawGood])]

/-- C7 witness: the amended success characterization applied to the
structurally valid raw input `rawGood`, all of whose divisors are
nonzero. -/
theorem C7_witness :
    structuralValid rawGood ∧ ∃ md, buildModel rawGood = .ok md :=
  ⟨rawGood_valid,
   (C7_build_success rawGood rawGood_valid).mpr
     (by refine ⟨?_, ?_, ?_, ?_, ?_, ?_, ?_, ?_, ?_, ?_, ?_⟩ <;>
        norm_num [rawGood, alookup])⟩

end MCDM
